import Mathlib

/-!
Shallow embedding of `src/wsk/package/router/router.js` (wsk-router), the
Cloud Foundry route reconciliation actions `list`, `map` (`mapRoutes`) and
`unmap` (`unmapRoutes`).

JavaScript dynamic values that the code inspects (truthiness, `typeof`,
strict equality with `true`) are modelled by the inductive `JSVal`.  The
remote Cloud Foundry client (`cf-nodejs-client`) is modelled by the
structure `Cloud`: one function per remote capability, each returning the
outcome the remote would produce for that request.  Every remote call the
code makes is additionally recorded as a `CallEvent` in a trace, so that
theorems can speak about which remote operations were and were not invoked.
-/

/-- A JavaScript value as far as the router code inspects one: `undefined`,
`null`, booleans, numbers, strings, and opaque non-array objects. -/
inductive JSVal where
  | undef : JSVal
  | null : JSVal
  | bool : Bool → JSVal
  | num : Int → JSVal
  | str : String → JSVal
  | obj : JSVal
deriving DecidableEq, Repr

/-- JavaScript truthiness (`!!v`).  NaN is not modelled; `num` truthiness is
nonzero-ness. -/
def JSVal.truthy : JSVal → Bool
  | .undef => false
  | .null => false
  | .bool b => b
  | .num n => n ≠ 0
  | .str s => s ≠ ""
  | .obj => true

/-- Embeds `typeof v === 'string'`. -/
def JSVal.isString : JSVal → Bool
  | .str _ => true
  | _ => false

/-- Embeds `typeof v === 'object'` (true for `null` and for plain objects). -/
def JSVal.isObject : JSVal → Bool
  | .null => true
  | .obj => true
  | _ => false

/-- The string carried by a `str` value; `""` otherwise (only read after the
validator has established `isString`). -/
def JSVal.strVal : JSVal → String
  | .str s => s
  | _ => ""

/-- One element of the `routes` array passed to `map`: an object whose `org`
and `space` properties are read. -/
structure RoutePair where
  org : JSVal
  space : JSVal
deriving DecidableEq, Repr

/-- The argument record of `map` (`mapRoutes`).  `routes` is either absent
(`undefined`) or an array; the `Array.isArray` rejection branch of the source
is unreachable in this model. -/
structure MapArgs where
  endpoint : JSVal
  token : JSVal
  appname : JSVal
  org : JSVal
  space : JSVal
  routes : Option (List RoutePair)
deriving DecidableEq, Repr

/-- The argument record of `unmap` (`unmapRoutes`). -/
structure UnmapArgs where
  endpoint : JSVal
  token : JSVal
  appname : JSVal
  routes : Option (List String)
  deleteAfterUnmap : JSVal
deriving DecidableEq, Repr

/-- The argument record of `list`. -/
structure ListArgs where
  endpoint : JSVal
  token : JSVal
  appname : JSVal
deriving DecidableEq, Repr

/-- Reading `.length` from a JavaScript `Set` yields `undefined`: `Set` has a
`.size` property, not `.length`.  The source reads
`requestedRouteAdditions.length` and `requestedRouteDeletions.length` on
`Set` objects, so the read is modelled faithfully as `none`. -/
def setLength (_s : List String) : Option Nat := none

/-- JavaScript loose inequality `v != 0` where `v` is `undefined` or a
number: `undefined != 0` is `true`. -/
def looseNeZero : Option Nat → Bool
  | none => true
  | some n => n ≠ 0

/-- Embeds `new Set(l)` for a list of strings: deduplicate, keeping the first
occurrence, preserving insertion order (JavaScript `Set` iteration order). -/
def jsSetOfList (l : List String) : List String :=
  l.foldl (fun acc h => if h ∈ acc then acc else acc ++ [h]) []

/-- JavaScript `String.prototype.trim`: drop leading and trailing
whitespace.  Defined by structural recursion on the character list so the
kernel can evaluate it on concrete strings. -/
def jsTrim (s : String) : String :=
  ((s.data.dropWhile Char.isWhitespace).reverse.dropWhile
    Char.isWhitespace).reverse.asString

/-- Embeds `validateArgsBasic` of router.js: endpoint must be a non-blank string,
token an object, appname a non-blank string. -/
def validateArgsBasic (endpoint token appname : JSVal) : Except String Unit :=
  if !endpoint.truthy || !endpoint.isString || jsTrim endpoint.strVal = "" then
    .error "\"endpoint\" not defined, must be string."
  else if !token.truthy || !token.isObject then
    .error "\"token\" not defined, must be object containing access/refresh token."
  else if !appname.truthy || !appname.isString || jsTrim appname.strVal = "" then
    .error "\"appname\" not defined, must be string."
  else .ok ()

/-- Embeds `validRouteSegment` of router.js: a string matching `[0-9a-zA-Z]+`. -/
def validRouteSegment (v : JSVal) : Bool :=
  v.isString && v.strVal ≠ "" && v.strVal.toList.all (fun ch => ch.isAlphanum)

/-- Embeds `validateArgsForMapRoutes` of router.js.  Returns the validation outcome
together with the argument record as the caller observes it afterwards: when
both `org` and `space` are truthy the source executes
`args.routes = args.routes || []` followed by
`args.routes.push({org: args.org, space: args.space})`, mutating the caller's
record.  The `requestedRouteAdditions.length != 0` test of the source reads
`.length` from a `Set` (see `setLength`), so the "no valid route names"
rejection is the dead branch of `looseNeZero`. -/
def validateArgsForMapRoutes (args : MapArgs) :
    Except String (List String) × MapArgs :=
  match validateArgsBasic args.endpoint args.token args.appname with
  | .error e => (.error e, args)
  | .ok _ =>
    if (args.org.truthy && !args.space.truthy)
        || (args.space.truthy && !args.org.truthy) then
      (.error "\"org\" and \"space\" must both be defined if either is defined.", args)
    else if (args.org.truthy && args.space.truthy) || args.routes.isSome then
      let args1 :=
        if args.org.truthy && args.space.truthy then
          { args with routes := some (args.routes.getD [] ++ [⟨args.org, args.space⟩]) }
        else args
      let requested := jsSetOfList
        ((((args1.routes.getD []).filter
            (fun r => validRouteSegment r.org && validRouteSegment r.space)).map
            (fun r => r.org.strVal ++ "-" ++ r.space.strVal)).filter
            (fun r => r.length ≤ 63))
      if looseNeZero (setLength requested) then (.ok requested, args1)
      else (.error "\"routes\" does not contain any valid route names to map (org/space must be in [0-9a-zA-Z] and no more than 62 chracter total).", args1)
    else
      (.error "either \"org\" & \"space\" must be defined or \"routes\" must be defined to map routes.", args)

/-- Embeds `validateArgsForUnmapRoutes` of router.js.  The emptiness test again reads
`.length` from a `Set`, so the "no route names to unmap" rejection is dead. -/
def validateArgsForUnmapRoutes (args : UnmapArgs) : Except String (List String) :=
  match validateArgsBasic args.endpoint args.token args.appname with
  | .error e => .error e
  | .ok _ =>
    match args.routes with
    | none => .error "\"routes\" not defined, must be array containing route names as strings."
    | some rs =>
      let requested := jsSetOfList
        ((rs.map jsTrim).filter (fun r => decide (r ≠ "")))
      if looseNeZero (setLength requested) then .ok requested
      else .error "\"routes\" does not contain any route names to unmap."

/-- The `entity` part of a remote route resource: host, domain guid, space
guid. -/
structure RouteEntity where
  host : String
  domain_guid : String
  space_guid : String
deriving DecidableEq, Repr

/-- A remote route resource: `metadata.guid` plus its `entity`. -/
structure RouteRecord where
  guid : String
  entity : RouteEntity
deriving DecidableEq, Repr

/-- A remote application resource (only `metadata.guid` is read). -/
structure AppRecord where
  guid : String
deriving DecidableEq, Repr

/-- A rejection value from a remote call.  `JSON.parse` of the rejection
succeeds exactly on `jsonCode c`, yielding an object whose `error_code`
field is `c`; `raw` stands for a rejection `JSON.parse` throws on. -/
inductive CfError where
  | jsonCode : String → CfError
  | raw : String → CfError
deriving DecidableEq, Repr

/-- The remote Cloud Foundry client as a deterministic oracle: for each
request, the outcome the remote produces.  `getApps` and `getAppRoutesFor`
model the resource listings (their own transport failures are not needed by
any claim); the five mutation-side calls can fail. -/
structure Cloud where
  getApps : String → List AppRecord
  getAppRoutesFor : String → List RouteRecord
  createRoute : Option String → Option String → String → Except CfError RouteRecord
  getRoutesByHost : String → Except CfError (List RouteRecord)
  associateRoute : String → String → Except CfError Unit
  unassociateRoute : String → String → Except CfError Unit
  removeRoute : String → Except CfError Unit

/-- A remote call made by the router, recorded in order. -/
inductive CallEvent where
  | getApps : String → CallEvent
  | getAppRoutes : String → CallEvent
  | create : Option String → Option String → String → CallEvent
  | lookup : String → CallEvent
  | associate : String → String → CallEvent
  | unassociate : String → String → CallEvent
  | remove : String → CallEvent
deriving DecidableEq, Repr

/-- One `{route, ok}` entry of the result status. -/
structure Entry where
  route : String
  ok : Bool
deriving DecidableEq, Repr

/-- One iteration of the `reduce` in `addRoutes`, for hostname `h`:
`Routes.add`, with recovery via `Routes.getRoutes({q: host:h})` and
`result.resources[0]` when the rejection parses to error code
`CF-RouteHostTaken`, then `Apps.associateRoute`; any failure is caught and
recorded as `ok: false`.  When the recovery lookup yields no resource,
`route.metadata.guid` throws on `undefined` before `associateRoute` is
called, so no associate event is recorded in that case. -/
def addOneRoute (c : Cloud) (app_guid : String) (d s : Option String)
    (h : String) : Entry × List CallEvent :=
  match c.createRoute d s h with
  | .ok route =>
    match c.associateRoute app_guid route.guid with
    | .ok _ => (⟨h, true⟩, [.create d s h, .associate app_guid route.guid])
    | .error _ => (⟨h, false⟩, [.create d s h, .associate app_guid route.guid])
  | .error (.jsonCode code) =>
    if code = "CF-RouteHostTaken" then
      match c.getRoutesByHost h with
      | .ok resources =>
        match resources.head? with
        | some route =>
          match c.associateRoute app_guid route.guid with
          | .ok _ => (⟨h, true⟩,
              [.create d s h, .lookup h, .associate app_guid route.guid])
          | .error _ => (⟨h, false⟩,
              [.create d s h, .lookup h, .associate app_guid route.guid])
        | none => (⟨h, false⟩, [.create d s h, .lookup h])
      | .error _ => (⟨h, false⟩, [.create d s h, .lookup h])
    else (⟨h, false⟩, [.create d s h])
  | .error (.raw _) => (⟨h, false⟩, [.create d s h])

/-- Embeds `addRoutes` of router.js: sequential `reduce` over the to-add hostnames,
appending one entry per hostname; a failure never aborts the fold. -/
def addRoutes (c : Cloud) (app_guid : String) (d s : Option String)
    (hosts : List String) : List Entry × List CallEvent :=
  hosts.foldl
    (fun acc h =>
      let r := addOneRoute c app_guid d s h
      (acc.1 ++ [r.1], acc.2 ++ r.2))
    ([], [])

/-- One iteration of the `reduce` in `deleteRoutes`, for live record `r`:
`Routes.remove` when `deleteAfterUnmap === true`, else
`Apps.unassociateRoute`; exactly one remote call either way. -/
def deleteOneRoute (c : Cloud) (app_guid : String) (deleteAfterUnmap : JSVal)
    (r : RouteRecord) : Entry × CallEvent :=
  if deleteAfterUnmap = JSVal.bool true then
    match c.removeRoute r.guid with
    | .ok _ => (⟨r.entity.host, true⟩, .remove r.guid)
    | .error _ => (⟨r.entity.host, false⟩, .remove r.guid)
  else
    match c.unassociateRoute app_guid r.guid with
    | .ok _ => (⟨r.entity.host, true⟩, .unassociate app_guid r.guid)
    | .error _ => (⟨r.entity.host, false⟩, .unassociate app_guid r.guid)

/-- Embeds `deleteRoutes` of router.js: sequential `reduce` over the matched live
records; a failure never aborts the fold. -/
def deleteRoutes (c : Cloud) (app_guid : String) (routes : List RouteRecord)
    (deleteAfterUnmap : JSVal) : List Entry × List CallEvent :=
  routes.foldl
    (fun acc r =>
      let e := deleteOneRoute c app_guid deleteAfterUnmap r
      (acc.1 ++ [e.1], acc.2 ++ [e.2]))
    ([], [])

/-- The record returned by `filterAddDeleteAndGetIds`. -/
structure DifferOut where
  domain_guid : Option String
  space_guid : Option String
  routesToAdd : List String
  routesToDelete : List RouteRecord
deriving DecidableEq, Repr

/-- One iteration of the `filter` callback in `filterAddDeleteAndGetIds`:
capture domain/space guids from a route whose host equals `appname`, delete
the host from the to-add set when it is already live, and keep the record
when its host is a requested deletion. -/
def differStep (appname : String) (adds dels : List String)
    (acc : DifferOut) (route : RouteRecord) : DifferOut :=
  let acc1 :=
    if route.entity.host = appname then
      { acc with domain_guid := some route.entity.domain_guid,
                 space_guid := some route.entity.space_guid }
    else acc
  let acc2 :=
    if route.entity.host ∈ adds then
      { acc1 with routesToAdd :=
          acc1.routesToAdd.filter (fun h => decide (h ≠ route.entity.host)) }
    else acc1
  if route.entity.host ∈ dels then
    { acc2 with routesToDelete := acc2.routesToDelete ++ [route] }
  else acc2

/-- Embeds `filterAddDeleteAndGetIds` of router.js: a single pass over the live
route list producing domain/space guids, the filtered to-add set, and the
full records scheduled for deletion. -/
def filterAddDeleteAndGetIds (routes : List RouteRecord) (appname : String)
    (requestedRouteAdditions requestedRouteDeletions : List String) : DifferOut :=
  routes.foldl (differStep appname requestedRouteAdditions requestedRouteDeletions)
    { domain_guid := none, space_guid := none,
      routesToAdd := requestedRouteAdditions, routesToDelete := [] }

/-- Embeds `getAppRoutes` of router.js: `Apps.getApps({q: name:appname})` must yield
exactly one resource, else the whole operation rejects; on success the app's
routes are listed. -/
def getAppRoutes (c : Cloud) (appname : String) :
    Except String (List RouteRecord × String) × List CallEvent :=
  match c.getApps appname with
  | [app] =>
    (.ok (c.getAppRoutesFor app.guid, app.guid),
     [.getApps appname, .getAppRoutes app.guid])
  | _ => (.error ("App " ++ appname ++ " not found."), [.getApps appname])

/-- The outcome-reporting tail of `mapRoutes`/`unmapRoutes`: each executed
entry's route is deleted from the requested set, and every leftover requested
hostname is appended with the direction's default (`true` on map, `false` on
unmap).  Net effect of the set deletions: the leftovers are the requested
hostnames, in insertion order, whose route does not occur in the result. -/
def outcomeReport (result : List Entry) (requested : List String)
    (leftoverOk : Bool) : List Entry :=
  result ++ (requested.filter
      (fun h => decide (h ∉ result.map Entry.route))).map
    (fun h => ⟨h, leftoverOk⟩)

/-- The Mutation Executor stage of `mapRoutes`: diff, then `addRoutes`. -/
def mapExec (c : Cloud) (appname : String) (requested : List String)
    (routes : List RouteRecord) (app_guid : String) :
    List Entry × List CallEvent :=
  let d := filterAddDeleteAndGetIds routes appname requested []
  addRoutes c app_guid d.domain_guid d.space_guid d.routesToAdd

/-- Embeds `mapRoutes` of router.js (exported as `map`). -/
def mapRoutes (c : Cloud) (args : MapArgs) :
    Except String (List Entry) × List CallEvent :=
  match (validateArgsForMapRoutes args).1 with
  | .error e => (.error e, [])
  | .ok requested =>
    match getAppRoutes c args.appname.strVal with
    | (.error e, t) => (.error e, t)
    | (.ok (routes, app_guid), t) =>
      let r := mapExec c args.appname.strVal requested routes app_guid
      (.ok (outcomeReport r.1 requested true), t ++ r.2)

/-- The Mutation Executor stage of `unmapRoutes`: diff, then `deleteRoutes`. -/
def unmapExec (c : Cloud) (appname : String) (requested : List String)
    (routes : List RouteRecord) (app_guid : String)
    (deleteAfterUnmap : JSVal) : List Entry × List CallEvent :=
  let d := filterAddDeleteAndGetIds routes appname [] requested
  deleteRoutes c app_guid d.routesToDelete deleteAfterUnmap

/-- Embeds `unmapRoutes` of router.js (exported as `unmap`). -/
def unmapRoutes (c : Cloud) (args : UnmapArgs) :
    Except String (List Entry) × List CallEvent :=
  match validateArgsForUnmapRoutes args with
  | .error e => (.error e, [])
  | .ok requested =>
    match getAppRoutes c args.appname.strVal with
    | (.error e, t) => (.error e, t)
    | (.ok (routes, app_guid), t) =>
      let r := unmapExec c args.appname.strVal requested routes app_guid
        args.deleteAfterUnmap
      (.ok (outcomeReport r.1 requested false), t ++ r.2)

/-- Embeds `list` of router.js: validate, look up the app, project the hosts. -/
def list (c : Cloud) (args : ListArgs) :
    Except String (List String) × List CallEvent :=
  match validateArgsBasic args.endpoint args.token args.appname with
  | .error e => (.error e, [])
  | .ok _ =>
    match getAppRoutes c args.appname.strVal with
    | (.error e, t) => (.error e, t)
    | (.ok (routes, _), t) => (.ok (routes.map (fun r => r.entity.host)), t)

/-- The per-hostname success condition of the add path, spelled out over the
oracle: creation succeeded and association succeeded, or creation failed with
the `CF-RouteHostTaken` code and the recovery lookup found a record whose
association succeeded. -/
def addOk (c : Cloud) (app_guid : String) (d s : Option String)
    (h : String) : Bool :=
  match c.createRoute d s h with
  | .ok route =>
    match c.associateRoute app_guid route.guid with
    | .ok _ => true
    | .error _ => false
  | .error (.jsonCode code) =>
    if code = "CF-RouteHostTaken" then
      match c.getRoutesByHost h with
      | .ok resources =>
        match resources.head? with
        | some route =>
          match c.associateRoute app_guid route.guid with
          | .ok _ => true
          | .error _ => false
        | none => false
      | .error _ => false
    else false
  | .error (.raw _) => false

/-- The per-record success condition of the delete path. -/
def delOk (c : Cloud) (app_guid : String) (deleteAfterUnmap : JSVal)
    (r : RouteRecord) : Bool :=
  if deleteAfterUnmap = JSVal.bool true then
    match c.removeRoute r.guid with
    | .ok _ => true
    | .error _ => false
  else
    match c.unassociateRoute app_guid r.guid with
    | .ok _ => true
    | .error _ => false

/-- The cloud used by witnesses whose remote calls all succeed; one app with
one live route whose host is `my-app`. -/
def cloudOk : Cloud :=
  { getApps := fun _ => [⟨"appg"⟩]
  , getAppRoutesFor := fun _ => [⟨"g1", ⟨"my-app", "D", "S"⟩⟩]
  , createRoute := fun _ _ h => .ok ⟨"new", ⟨h, "D", "S"⟩⟩
  , getRoutesByHost := fun _ => .ok []
  , associateRoute := fun _ _ => .ok ()
  , unassociateRoute := fun _ _ => .ok ()
  , removeRoute := fun _ => .ok () }

/-- A cloud whose `createRoute` always rejects with the `CF-RouteHostTaken`
conflict code and whose recovery lookup finds an existing record. -/
def cloudConflict : Cloud :=
  { cloudOk with
    createRoute := fun _ _ _ => .error (.jsonCode "CF-RouteHostTaken")
  , getRoutesByHost := fun h => .ok [⟨"exg", ⟨h, "D", "S"⟩⟩] }

/-- A cloud in which the app has two live route records sharing the host
`h` under two different domains. -/
def cloudDupHosts : Cloud :=
  { cloudOk with
    getAppRoutesFor := fun _ => [⟨"g1", ⟨"h", "D1", "S1"⟩⟩, ⟨"g2", ⟨"h", "D2", "S2"⟩⟩] }

/-- A cloud in which the application-by-name query returns no resource. -/
def cloudNoApp : Cloud :=
  { cloudOk with getApps := fun _ => [] }

/-- A well-formed `map` request: one routes entry `{org: "my", space: "app"}`,
whose candidate hostname `my-app` is already live in `cloudOk`. -/
def margsPre : MapArgs :=
  ⟨.str "e", .obj, .str "app", .undef, .undef, some [⟨.str "my", .str "app"⟩]⟩

/-- A well-formed `map` request whose candidate hostname `other-app` is not
live in `cloudConflict`. -/
def margsC3 : MapArgs :=
  ⟨.str "e", .obj, .str "app", .undef, .undef, some [⟨.str "other", .str "app"⟩]⟩

/-- A `map` request every routes entry of which is dropped by validation
(the org segment `"a b"` contains a space). -/
def margsBad : MapArgs :=
  ⟨.str "e", .obj, .str "app", .undef, .undef, some [⟨.str "a b", .str "c"⟩]⟩

/-- A `map` request with `org`/`space` provided and an (empty) routes array,
whose validation mutates the routes array. -/
def margsMut : MapArgs :=
  ⟨.str "e", .obj, .str "app", .str "o", .str "sp", some []⟩

/-- An `unmap` request every entry of which is blank after trimming. -/
def uargsBad : UnmapArgs := ⟨.str "e", .obj, .str "app", some [" "], .undef⟩

/-- An `unmap` request for the single hostname `ghost`, not live anywhere. -/
def uargsGhost : UnmapArgs := ⟨.str "e", .obj, .str "app", some ["ghost"], .undef⟩

/-- An `unmap` request for hostnames `my-app` (live in `cloudOk`) and
`ghost` (not live). -/
def uargsC1 : UnmapArgs :=
  ⟨.str "e", .obj, .str "app", some ["my-app", "ghost"], .undef⟩

/-- An `unmap` request for the single hostname `h`, which `cloudDupHosts`
serves with two live route records. -/
def uargsDup : UnmapArgs := ⟨.str "e", .obj, .str "app", some ["h"], .undef⟩

/-- A well-formed `list`-operation argument record. -/
def largsW : ListArgs := ⟨.str "e", .obj, .str "app"⟩

lemma jsSetOfList_loop_mem (l : List String) (acc : List String) (a : String) :
    a ∈ l.foldl (fun acc h => if h ∈ acc then acc else acc ++ [h]) acc ↔
      a ∈ acc ∨ a ∈ l := by
  induction l generalizing acc with
  | nil => simp
  | cons x xs ih =>
    simp only [List.foldl_cons, List.mem_cons]
    by_cases hx : x ∈ acc
    · rw [if_pos hx, ih]
      constructor
      · rintro (h | h)
        · exact Or.inl h
        · exact Or.inr (Or.inr h)
      · rintro (h | h | h)
        · exact Or.inl h
        · exact Or.inl (h ▸ hx)
        · exact Or.inr h
    · rw [if_neg hx, ih]
      simp only [List.mem_append, List.mem_singleton]
      tauto

lemma jsSetOfList_loop_nodup (l : List String) (acc : List String)
    (hacc : acc.Nodup) :
    (l.foldl (fun acc h => if h ∈ acc then acc else acc ++ [h]) acc).Nodup := by
  induction l generalizing acc with
  | nil => simpa using hacc
  | cons x xs ih =>
    simp only [List.foldl_cons]
    by_cases hx : x ∈ acc
    · rw [if_pos hx]; exact ih acc hacc
    · rw [if_neg hx]
      refine ih _ ?_
      simpa [List.nodup_append] using ⟨hacc, hx⟩

lemma jsSetOfList_nodup (l : List String) : (jsSetOfList l).Nodup :=
  jsSetOfList_loop_nodup l [] List.nodup_nil

lemma mem_jsSetOfList (l : List String) (a : String) :
    a ∈ jsSetOfList l ↔ a ∈ l := by
  rw [jsSetOfList, jsSetOfList_loop_mem]; simp

lemma count_nodup_ite {l : List String} (hl : l.Nodup) (a : String) :
    l.count a = if a ∈ l then 1 else 0 := by
  split
  · exact List.count_eq_one_of_mem hl ‹_›
  · exact List.count_eq_zero.mpr ‹_›

lemma validateArgsForMapRoutes_ok_set {args : MapArgs} {req : List String}
    {a' : MapArgs} (h : validateArgsForMapRoutes args = (.ok req, a')) :
    ∃ l, req = jsSetOfList l := by
  unfold validateArgsForMapRoutes at h
  simp only [setLength, looseNeZero, if_true] at h
  split at h
  · simp at h
  · split at h
    · simp at h
    · split at h
      · simp only [Prod.mk.injEq, Except.ok.injEq] at h
        exact ⟨_, h.1.symm⟩
      · simp at h

lemma validateArgsForMapRoutes_ok_nodup {args : MapArgs} {req : List String}
    {a' : MapArgs} (h : validateArgsForMapRoutes args = (.ok req, a')) :
    req.Nodup := by
  obtain ⟨l, rfl⟩ := validateArgsForMapRoutes_ok_set h
  exact jsSetOfList_nodup l

lemma validateArgsForUnmapRoutes_ok_set {args : UnmapArgs} {req : List String}
    (h : validateArgsForUnmapRoutes args = .ok req) :
    ∃ l, req = jsSetOfList l := by
  unfold validateArgsForUnmapRoutes at h
  simp only [setLength, looseNeZero, if_true] at h
  split at h
  · simp at h
  · split at h
    · simp at h
    · simp only [Except.ok.injEq] at h
      exact ⟨_, h.symm⟩

lemma validateArgsForUnmapRoutes_ok_nodup {args : UnmapArgs} {req : List String}
    (h : validateArgsForUnmapRoutes args = .ok req) : req.Nodup := by
  obtain ⟨l, rfl⟩ := validateArgsForUnmapRoutes_ok_set h
  exact jsSetOfList_nodup l

lemma addOneRoute_fst (c : Cloud) (g : String) (d s : Option String)
    (h : String) : (addOneRoute c g d s h).1 = ⟨h, addOk c g d s h⟩ := by
  unfold addOneRoute addOk
  split
  · split <;> rfl
  · split
    · split
      · split
        · split <;> rfl
        · rfl
      · rfl
    · rfl
  · rfl

lemma addRoutes_loop (c : Cloud) (g : String) (d s : Option String)
    (hs : List String) (acc : List Entry × List CallEvent) :
    hs.foldl (fun acc h =>
        let r := addOneRoute c g d s h
        (acc.1 ++ [r.1], acc.2 ++ r.2)) acc =
      (acc.1 ++ hs.map (fun h => (addOneRoute c g d s h).1),
       acc.2 ++ (hs.map (fun h => (addOneRoute c g d s h).2)).flatten) := by
  induction hs generalizing acc with
  | nil => simp
  | cons x xs ih => simp [ih]

lemma addRoutes_fst (c : Cloud) (g : String) (d s : Option String)
    (hs : List String) :
    (addRoutes c g d s hs).1 = hs.map (fun h => ⟨h, addOk c g d s h⟩) := by
  unfold addRoutes
  rw [addRoutes_loop]
  simp [addOneRoute_fst]

lemma addRoutes_snd (c : Cloud) (g : String) (d s : Option String)
    (hs : List String) :
    (addRoutes c g d s hs).2 =
      (hs.map (fun h => (addOneRoute c g d s h).2)).flatten := by
  unfold addRoutes
  rw [addRoutes_loop]
  simp

lemma deleteOneRoute_fst (c : Cloud) (g : String) (del : JSVal)
    (r : RouteRecord) :
    (deleteOneRoute c g del r).1 = ⟨r.entity.host, delOk c g del r⟩ := by
  unfold deleteOneRoute delOk
  split
  · split <;> rfl
  · split <;> rfl

lemma deleteOneRoute_snd (c : Cloud) (g : String) (del : JSVal)
    (r : RouteRecord) :
    (deleteOneRoute c g del r).2 =
      if del = JSVal.bool true then CallEvent.remove r.guid
      else CallEvent.unassociate g r.guid := by
  unfold deleteOneRoute
  split
  · split <;> simp_all
  · split <;> simp_all

lemma deleteRoutes_loop (c : Cloud) (g : String) (del : JSVal)
    (rs : List RouteRecord) (acc : List Entry × List CallEvent) :
    rs.foldl (fun acc r =>
        let e := deleteOneRoute c g del r
        (acc.1 ++ [e.1], acc.2 ++ [e.2])) acc =
      (acc.1 ++ rs.map (fun r => (deleteOneRoute c g del r).1),
       acc.2 ++ rs.map (fun r => (deleteOneRoute c g del r).2)) := by
  induction rs generalizing acc with
  | nil => simp
  | cons x xs ih => simp [ih]

lemma deleteRoutes_fst (c : Cloud) (g : String) (del : JSVal)
    (rs : List RouteRecord) :
    (deleteRoutes c g rs del).1 =
      rs.map (fun r => ⟨r.entity.host, delOk c g del r⟩) := by
  unfold deleteRoutes
  rw [deleteRoutes_loop]
  simp [deleteOneRoute_fst]

lemma deleteRoutes_snd (c : Cloud) (g : String) (del : JSVal)
    (rs : List RouteRecord) :
    (deleteRoutes c g rs del).2 =
      rs.map (fun r =>
        if del = JSVal.bool true then CallEvent.remove r.guid
        else CallEvent.unassociate g r.guid) := by
  unfold deleteRoutes
  rw [deleteRoutes_loop]
  simp [deleteOneRoute_snd]

lemma differStep_domain (an : String) (adds dels : List String)
    (acc : DifferOut) (r : RouteRecord) :
    (differStep an adds dels acc r).domain_guid =
      if r.entity.host = an then some r.entity.domain_guid
      else acc.domain_guid := by
  simp only [differStep]
  split_ifs <;> rfl

lemma differStep_space (an : String) (adds dels : List String)
    (acc : DifferOut) (r : RouteRecord) :
    (differStep an adds dels acc r).space_guid =
      if r.entity.host = an then some r.entity.space_guid
      else acc.space_guid := by
  simp only [differStep]
  split_ifs <;> rfl

lemma differStep_routesToAdd (an : String) (adds dels : List String)
    (acc : DifferOut) (r : RouteRecord) :
    (differStep an adds dels acc r).routesToAdd =
      if r.entity.host ∈ adds then
        acc.routesToAdd.filter (fun h => decide (h ≠ r.entity.host))
      else acc.routesToAdd := by
  simp only [differStep]
  split_ifs <;> rfl

lemma differStep_routesToDelete (an : String) (adds dels : List String)
    (acc : DifferOut) (r : RouteRecord) :
    (differStep an adds dels acc r).routesToDelete =
      if r.entity.host ∈ dels then acc.routesToDelete ++ [r]
      else acc.routesToDelete := by
  simp only [differStep]
  split_ifs <;> rfl

lemma differ_routesToAdd (routes : List RouteRecord) (an : String)
    (adds dels : List String) :
    (filterAddDeleteAndGetIds routes an adds dels).routesToAdd =
      adds.filter (fun h => decide (∀ r ∈ routes, r.entity.host ≠ h)) := by
  induction routes using List.reverseRecOn with
  | nil =>
    simp only [filterAddDeleteAndGetIds, List.foldl_nil]
    have he : adds.filter
        (fun h => decide (∀ r ∈ ([] : List RouteRecord), r.entity.host ≠ h)) =
        adds.filter (fun _ => true) := by
      refine List.filter_congr ?_
      intro x _
      simp
    rw [he, List.filter_true]
  | append_singleton l r ih =>
    unfold filterAddDeleteAndGetIds at ih ⊢
    rw [List.foldl_append, List.foldl_cons, List.foldl_nil,
      differStep_routesToAdd, ih]
    have hpt : ∀ x : String,
        (decide (∀ q ∈ l ++ [r], q.entity.host ≠ x) : Bool) =
          (decide (∀ q ∈ l, q.entity.host ≠ x) && decide (r.entity.host ≠ x)) := by
      intro x
      rw [← Bool.decide_and]
      apply decide_eq_decide.mpr
      constructor
      · intro hall
        exact ⟨fun q hq => hall q (List.mem_append_left _ hq), hall r (by simp)⟩
      · rintro ⟨h1, h2⟩ q hq
        rcases List.mem_append.mp hq with hmem | hmem
        · exact h1 q hmem
        · rw [List.mem_singleton] at hmem
          subst hmem
          exact h2
    by_cases hr : r.entity.host ∈ adds
    · rw [if_pos hr, List.filter_filter]
      refine List.filter_congr ?_
      intro x _
      rw [hpt x]
      have hsym : (decide (x ≠ r.entity.host) : Bool) =
          decide (r.entity.host ≠ x) := decide_eq_decide.mpr ne_comm
      rw [hsym, Bool.and_comm]
    · rw [if_neg hr]
      refine List.filter_congr ?_
      intro x hx
      rw [hpt x]
      have hxr : r.entity.host ≠ x := fun hEq => hr (hEq ▸ hx)
      simp [hxr]

lemma differ_routesToDelete (routes : List RouteRecord) (an : String)
    (adds dels : List String) :
    (filterAddDeleteAndGetIds routes an adds dels).routesToDelete =
      routes.filter (fun r => decide (r.entity.host ∈ dels)) := by
  induction routes using List.reverseRecOn with
  | nil => simp [filterAddDeleteAndGetIds]
  | append_singleton l r ih =>
    unfold filterAddDeleteAndGetIds at ih ⊢
    rw [List.foldl_append, List.foldl_cons, List.foldl_nil,
      differStep_routesToDelete, ih, List.filter_append]
    by_cases hr : r.entity.host ∈ dels
    · rw [if_pos hr]
      simp [hr]
    · rw [if_neg hr]
      simp [hr]

lemma differ_ids (routes : List RouteRecord) (an : String)
    (adds dels : List String) :
    ((∀ r ∈ routes, r.entity.host ≠ an) →
       (filterAddDeleteAndGetIds routes an adds dels).domain_guid = none ∧
       (filterAddDeleteAndGetIds routes an adds dels).space_guid = none) ∧
    ((∃ r ∈ routes, r.entity.host = an) →
       ∃ r ∈ routes, r.entity.host = an ∧
         (filterAddDeleteAndGetIds routes an adds dels).domain_guid =
           some r.entity.domain_guid ∧
         (filterAddDeleteAndGetIds routes an adds dels).space_guid =
           some r.entity.space_guid) := by
  induction routes using List.reverseRecOn with
  | nil => simp [filterAddDeleteAndGetIds]
  | append_singleton l r ih =>
    unfold filterAddDeleteAndGetIds at ih ⊢
    rw [List.foldl_append, List.foldl_cons, List.foldl_nil]
    constructor
    · intro hno
      have hr : r.entity.host ≠ an := hno r (by simp)
      rw [differStep_domain, differStep_space, if_neg hr, if_neg hr]
      exact ih.1 (fun x hx => hno x (List.mem_append_left _ hx))
    · intro hex
      by_cases hr : r.entity.host = an
      · refine ⟨r, by simp, hr, ?_, ?_⟩
        · rw [differStep_domain, if_pos hr]
        · rw [differStep_space, if_pos hr]
      · obtain ⟨x, hxl, hxan⟩ : ∃ x ∈ l, x.entity.host = an := by
          rcases hex with ⟨x, hx, hxan⟩
          rcases List.mem_append.mp hx with hmem | hmem
          · exact ⟨x, hmem, hxan⟩
          · rw [List.mem_singleton] at hmem
            exact absurd (hmem ▸ hxan) hr
        obtain ⟨y, hyl, hyan, hyd, hys⟩ := ih.2 ⟨x, hxl, hxan⟩
        refine ⟨y, List.mem_append_left _ hyl, hyan, ?_, ?_⟩
        · rw [differStep_domain, if_neg hr]
          exact hyd
        · rw [differStep_space, if_neg hr]
          exact hys

lemma getAppRoutes_one {c : Cloud} {name : String} {app : AppRecord}
    (h : c.getApps name = [app]) :
    getAppRoutes c name =
      (.ok (c.getAppRoutesFor app.guid, app.guid),
       [.getApps name, .getAppRoutes app.guid]) := by
  unfold getAppRoutes
  rw [h]

lemma getAppRoutes_not_one {c : Cloud} {name : String}
    (h : (c.getApps name).length ≠ 1) :
    getAppRoutes c name =
      (.error ("App " ++ name ++ " not found."), [.getApps name]) := by
  unfold getAppRoutes
  split
  · rename_i app heq
    rw [heq] at h
    simp at h
  · rfl

lemma mapRoutes_ok {c : Cloud} {args : MapArgs} {req : List String}
    {a' : MapArgs} {routes : List RouteRecord} {g : String}
    {t : List CallEvent}
    (hv : validateArgsForMapRoutes args = (.ok req, a'))
    (hl : getAppRoutes c args.appname.strVal = (.ok (routes, g), t)) :
    mapRoutes c args =
      (.ok (outcomeReport (mapExec c args.appname.strVal req routes g).1 req true),
       t ++ (mapExec c args.appname.strVal req routes g).2) := by
  unfold mapRoutes
  rw [hv, hl]

lemma unmapRoutes_ok {c : Cloud} {args : UnmapArgs} {req : List String}
    {routes : List RouteRecord} {g : String} {t : List CallEvent}
    (hv : validateArgsForUnmapRoutes args = .ok req)
    (hl : getAppRoutes c args.appname.strVal = (.ok (routes, g), t)) :
    unmapRoutes c args =
      (.ok (outcomeReport
          (unmapExec c args.appname.strVal req routes g args.deleteAfterUnmap).1
          req false),
       t ++ (unmapExec c args.appname.strVal req routes g args.deleteAfterUnmap).2) := by
  unfold unmapRoutes
  rw [hv, hl]

lemma outcomeReport_map_route (result : List Entry) (requested : List String)
    (b : Bool) :
    (outcomeReport result requested b).map Entry.route =
      result.map Entry.route ++
        requested.filter (fun h => decide (h ∉ result.map Entry.route)) := by
  unfold outcomeReport
  rw [List.map_append, List.map_map]
  have hid : (Entry.route ∘ fun h => ({ route := h, ok := b } : Entry)) = id := rfl
  rw [hid, List.map_id]

lemma outcomeReport_count (result : List Entry) (requested : List String)
    (b : Bool) (hreq : requested.Nodup) (h : String) :
    ((outcomeReport result requested b).map Entry.route).count h =
      (result.map Entry.route).count h +
        (if h ∈ requested ∧ h ∉ result.map Entry.route then 1 else 0) := by
  rw [outcomeReport_map_route, List.count_append]
  congr 1
  rw [count_nodup_ite (hreq.filter _) h]
  congr 1
  simp [List.mem_filter]

lemma outcomeReport_leftover_mem (result : List Entry) (requested : List String)
    (b : Bool) (h : String) (hmem : h ∈ requested)
    (habs : h ∉ result.map Entry.route) :
    (⟨h, b⟩ : Entry) ∈ outcomeReport result requested b := by
  unfold outcomeReport
  refine List.mem_append_right _ ?_
  exact List.mem_map.mpr ⟨h, List.mem_filter.mpr ⟨hmem, by simpa using habs⟩, rfl⟩

/-- C5: for every route record processed by the delete path, when
`deleteAfterUnmap` is unset (`undefined`) the trace consists of exactly one
`unassociateRoute` call per record and contains no `removeRoute` call; when
`deleteAfterUnmap` is the boolean `true` it consists of exactly one
`removeRoute` call per record. -/
theorem c5_destroy_vs_unassociate (c : Cloud) (g : String)
    (rs : List RouteRecord) :
    (deleteRoutes c g rs JSVal.undef).2 =
      rs.map (fun r => CallEvent.unassociate g r.guid) ∧
    (deleteRoutes c g rs (JSVal.bool true)).2 =
      rs.map (fun r => CallEvent.remove r.guid) := by
  constructor
  · rw [deleteRoutes_snd]
    simp
  · rw [deleteRoutes_snd]
    simp

/-- C6: the Mutation Executor never aborts the batch: for every add set,
delete set, and cloud (hence any pattern of per-call failures), the result is
exactly one entry per target, in processing order, carrying that target's
name and its own outcome (`addOk`/`delOk`); in particular a failing target is
recorded with `ok := false` and every later target still gets its entry. -/
theorem c6_executor_never_aborts (c : Cloud) (g : String) (d s : Option String)
    (hs : List String) (del : JSVal) (rs : List RouteRecord) :
    (addRoutes c g d s hs).1 = hs.map (fun h => ⟨h, addOk c g d s h⟩) ∧
    (deleteRoutes c g rs del).1 =
      rs.map (fun r => ⟨r.entity.host, delOk c g del r⟩) :=
  ⟨addRoutes_fst c g d s hs, deleteRoutes_fst c g del rs⟩

/-- C10: the destroy-intent test is strict: for every value of
`deleteAfterUnmap` other than the boolean `true` (for example the string
`"true"` or the number `1`), each processed record is only disassociated and
`removeRoute` is never called. -/
theorem c10_strict_true_check (c : Cloud) (g : String) (rs : List RouteRecord)
    (v : JSVal) (hv : v ≠ JSVal.bool true) :
    (deleteRoutes c g rs v).2 =
      rs.map (fun r => CallEvent.unassociate g r.guid) := by
  rw [deleteRoutes_snd]
  simp only [if_neg hv]

/-- Witness for C10 at the truthy non-boolean value `"true"`. -/
theorem c10_witness :
    (deleteRoutes cloudOk "appg" [⟨"g9", ⟨"h", "D", "S"⟩⟩] (JSVal.str "true")).2 =
      [CallEvent.unassociate "appg" "g9"] :=
  c10_strict_true_check cloudOk "appg" [⟨"g9", ⟨"h", "D", "S"⟩⟩]
    (JSVal.str "true") (by decide)

/-- C4 evidence (code bug): the emptiness test of both validators reads
`.length` from a `Set`, which is `undefined`, and `undefined != 0` holds, so
the test is constantly true: a map request whose every routes entry is
dropped and an unmap request whose every entry is blank are accepted with an
empty candidate set instead of being rejected, and the map request then
reaches the remote API (two remote calls in the trace). -/
theorem c4_validator_accepts_empty :
    (∀ s : List String, looseNeZero (setLength s) = true) ∧
    (validateArgsForMapRoutes margsBad).1 = .ok [] ∧
    mapRoutes cloudOk margsBad =
      (.ok [], [.getApps "app", .getAppRoutes "appg"]) ∧
    validateArgsForUnmapRoutes uargsBad = .ok [] :=
  ⟨fun _ => rfl, rfl, rfl, rfl⟩

/-- C7: the Route Differ's outputs: `domain_guid`/`space_guid` are `none`
when no live route's host equals `appname` and otherwise come from a live
route whose host equals `appname`; `routesToAdd` is the requested-addition
set minus every hostname present in the live list; `routesToDelete` is
exactly the live records (full records) whose host is a requested
deletion. -/
theorem c7_differ_outputs (routes : List RouteRecord) (appname : String)
    (adds dels : List String) :
    ((∀ r ∈ routes, r.entity.host ≠ appname) →
       (filterAddDeleteAndGetIds routes appname adds dels).domain_guid = none ∧
       (filterAddDeleteAndGetIds routes appname adds dels).space_guid = none) ∧
    ((∃ r ∈ routes, r.entity.host = appname) →
       ∃ r ∈ routes, r.entity.host = appname ∧
         (filterAddDeleteAndGetIds routes appname adds dels).domain_guid =
           some r.entity.domain_guid ∧
         (filterAddDeleteAndGetIds routes appname adds dels).space_guid =
           some r.entity.space_guid) ∧
    (∀ h, h ∈ (filterAddDeleteAndGetIds routes appname adds dels).routesToAdd ↔
       h ∈ adds ∧ ∀ r ∈ routes, r.entity.host ≠ h) ∧
    (filterAddDeleteAndGetIds routes appname adds dels).routesToDelete =
      routes.filter (fun r => decide (r.entity.host ∈ dels)) := by
  refine ⟨(differ_ids routes appname adds dels).1,
    (differ_ids routes appname adds dels).2, ?_,
    differ_routesToDelete routes appname adds dels⟩
  intro h
  rw [differ_routesToAdd]
  simp [List.mem_filter]

/-- Witness for C7: one live route `app` (so its guids are extracted), one
requested addition `x` not live (so it stays in `routesToAdd`). -/
theorem c7_witness :
    (∃ r ∈ ([⟨"g1", ⟨"app", "D", "S"⟩⟩] : List RouteRecord),
        r.entity.host = "app" ∧
        (filterAddDeleteAndGetIds [⟨"g1", ⟨"app", "D", "S"⟩⟩] "app" ["x"]
          ["app"]).domain_guid = some r.entity.domain_guid ∧
        (filterAddDeleteAndGetIds [⟨"g1", ⟨"app", "D", "S"⟩⟩] "app" ["x"]
          ["app"]).space_guid = some r.entity.space_guid) ∧
    ("x" ∈ (filterAddDeleteAndGetIds [⟨"g1", ⟨"app", "D", "S"⟩⟩] "app" ["x"]
        ["app"]).routesToAdd ↔
      "x" ∈ ["x"] ∧
        ∀ r ∈ ([⟨"g1", ⟨"app", "D", "S"⟩⟩] : List RouteRecord),
          r.entity.host ≠ "x") := by
  refine ⟨(c7_differ_outputs [⟨"g1", ⟨"app", "D", "S"⟩⟩] "app" ["x"]
      ["app"]).2.1 ?_,
    (c7_differ_outputs [⟨"g1", ⟨"app", "D", "S"⟩⟩] "app" ["x"]
      ["app"]).2.2.1 "x"⟩
  exact ⟨⟨"g1", ⟨"app", "D", "S"⟩⟩, by simp, rfl⟩

/-- C9: for every list, map, or unmap request that passes validation, when
the application-by-name query does not return exactly one record the whole
operation rejects with the lookup failure and the trace holds only the
`getApps` query: no route listing, diffing, or mutation happens. -/
theorem c9_lookup_failure (c : Cloud) (largs : ListArgs) (margs : MapArgs)
    (uargs : UnmapArgs) (reqA reqD : List String) (a' : MapArgs) :
    (validateArgsBasic largs.endpoint largs.token largs.appname = .ok () →
      (c.getApps largs.appname.strVal).length ≠ 1 →
      list c largs =
        (.error ("App " ++ largs.appname.strVal ++ " not found."),
         [.getApps largs.appname.strVal])) ∧
    (validateArgsForMapRoutes margs = (.ok reqA, a') →
      (c.getApps margs.appname.strVal).length ≠ 1 →
      mapRoutes c margs =
        (.error ("App " ++ margs.appname.strVal ++ " not found."),
         [.getApps margs.appname.strVal])) ∧
    (validateArgsForUnmapRoutes uargs = .ok reqD →
      (c.getApps uargs.appname.strVal).length ≠ 1 →
      unmapRoutes c uargs =
        (.error ("App " ++ uargs.appname.strVal ++ " not found."),
         [.getApps uargs.appname.strVal])) := by
  refine ⟨?_, ?_, ?_⟩
  · intro hv hlen
    unfold list
    rw [hv, getAppRoutes_not_one hlen]
  · intro hv hlen
    unfold mapRoutes
    rw [hv, getAppRoutes_not_one hlen]
  · intro hv hlen
    unfold unmapRoutes
    rw [hv, getAppRoutes_not_one hlen]

/-- Witness for C9: against `cloudNoApp` (zero matching applications) the
three operations reject with the lookup failure after a single remote
call. -/
theorem c9_witness :
    list cloudNoApp largsW =
      (.error "App app not found.", [.getApps "app"]) ∧
    mapRoutes cloudNoApp margsPre =
      (.error "App app not found.", [.getApps "app"]) ∧
    unmapRoutes cloudNoApp uargsGhost =
      (.error "App app not found.", [.getApps "app"]) := by
  obtain ⟨h1, h2, h3⟩ := c9_lookup_failure cloudNoApp largsW margsPre
    uargsGhost ["my-app"] ["ghost"] margsPre
  exact ⟨h1 rfl (by decide), h2 rfl (by decide), h3 rfl (by decide)⟩

/-- C2: the leftover policy is asymmetric: on map, a requested hostname
absent from the Mutation Executor's result appears in the final status with
`ok := true`; on unmap, a requested hostname absent from the executor's
result appears with `ok := false`. -/
theorem c2_leftover_policy (c : Cloud) (margs : MapArgs) (uargs : UnmapArgs)
    (reqA reqD : List String) (a' : MapArgs)
    (routesA routesD : List RouteRecord) (gA gD : String)
    (tA tD : List CallEvent) (h hd : String) :
    (validateArgsForMapRoutes margs = (.ok reqA, a') →
      getAppRoutes c margs.appname.strVal = (.ok (routesA, gA), tA) →
      h ∈ reqA →
      h ∉ (mapExec c margs.appname.strVal reqA routesA gA).1.map Entry.route →
      ∃ st, (mapRoutes c margs).1 = .ok st ∧ (⟨h, true⟩ : Entry) ∈ st) ∧
    (validateArgsForUnmapRoutes uargs = .ok reqD →
      getAppRoutes c uargs.appname.strVal = (.ok (routesD, gD), tD) →
      hd ∈ reqD →
      hd ∉ (unmapExec c uargs.appname.strVal reqD routesD gD
          uargs.deleteAfterUnmap).1.map Entry.route →
      ∃ st, (unmapRoutes c uargs).1 = .ok st ∧ (⟨hd, false⟩ : Entry) ∈ st) := by
  constructor
  · intro hv hl hmem habs
    refine ⟨outcomeReport (mapExec c margs.appname.strVal reqA routesA gA).1
      reqA true, ?_, ?_⟩
    · rw [mapRoutes_ok hv hl]
    · exact outcomeReport_leftover_mem _ _ _ _ hmem habs
  · intro hv hl hmem habs
    refine ⟨outcomeReport (unmapExec c uargs.appname.strVal reqD routesD gD
      uargs.deleteAfterUnmap).1 reqD false, ?_, ?_⟩
    · rw [unmapRoutes_ok hv hl]
    · exact outcomeReport_leftover_mem _ _ _ _ hmem habs

/-- Witness for C2: `my-app` is already live, so the map executor's result
is empty and `my-app` is reported `ok := true`; `ghost` matches no live
route, so the unmap executor's result is empty and `ghost` is reported
`ok := false`. -/
theorem c2_witness :
    (∃ st, (mapRoutes cloudOk margsPre).1 = .ok st ∧
      (⟨"my-app", true⟩ : Entry) ∈ st) ∧
    (∃ st, (unmapRoutes cloudOk uargsGhost).1 = .ok st ∧
      (⟨"ghost", false⟩ : Entry) ∈ st) := by
  obtain ⟨h1, h2⟩ := c2_leftover_policy cloudOk margsPre uargsGhost
    ["my-app"] ["ghost"] margsPre
    [⟨"g1", ⟨"my-app", "D", "S"⟩⟩] [⟨"g1", ⟨"my-app", "D", "S"⟩⟩]
    "appg" "appg"
    [.getApps "app", .getAppRoutes "appg"] [.getApps "app", .getAppRoutes "appg"]
    "my-app" "ghost"
  exact ⟨h1 rfl rfl (by decide) (by decide), h2 rfl rfl (by decide) (by decide)⟩

/-- C8 counterexample: validation of a map request providing `org`, `space`
and an empty routes array hands back a request record whose routes array has
been extended, so validation is not side-effect free. -/
theorem c8_counterexample :
    (validateArgsForMapRoutes margsMut).2 ≠ margsMut := by decide

/-- C8 amended: validation for list and unmap never touches the request
record (their embeddings return no modified record at all); map validation
leaves the record unchanged unless both `org` and `space` are truthy, in
which case (when basic validation passes) it appends `{org, space}` to the
caller's routes array, creating the array when absent. -/
theorem c8_validation_mutation_amended (args : MapArgs) :
    (¬(args.org.truthy = true ∧ args.space.truthy = true) →
      (validateArgsForMapRoutes args).2 = args) ∧
    (args.org.truthy = true → args.space.truthy = true →
      validateArgsBasic args.endpoint args.token args.appname = .ok () →
      (validateArgsForMapRoutes args).2 =
        { args with
          routes := some (args.routes.getD [] ++ [⟨args.org, args.space⟩]) }) := by
  constructor
  · intro hno
    have hns : (args.org.truthy && args.space.truthy) = false := by
      cases ho : args.org.truthy <;> cases hsp : args.space.truthy <;>
        simp_all
    unfold validateArgsForMapRoutes
    split
    · rfl
    · split
      · rfl
      · split
        · simp only [hns, Bool.false_eq_true, if_false, setLength,
            looseNeZero, if_true]
        · rfl
  · intro ho hsp hb
    unfold validateArgsForMapRoutes
    rw [hb, ho, hsp]
    simp [setLength, looseNeZero]

/-- Witness for C8: the amended mutation shape at a concrete record. -/
theorem c8_witness :
    (validateArgsForMapRoutes margsMut).2 =
      { margsMut with routes := some [⟨.str "o", .str "sp"⟩] } :=
  (c8_validation_mutation_amended margsMut).2 (by decide) (by decide) rfl

lemma addOk_recovered {c : Cloud} {g : String} {h : String}
    {resources : List RouteRecord} {r : RouteRecord} (dg sg : Option String)
    (hcreate : c.createRoute dg sg h = .error (.jsonCode "CF-RouteHostTaken"))
    (hlook : c.getRoutesByHost h = .ok resources)
    (hhead : resources.head? = some r)
    (hassoc : c.associateRoute g r.guid = .ok ()) :
    addOk c g dg sg h = true := by
  unfold addOk
  rw [hcreate]
  simp [hlook, hhead, hassoc]

lemma addOneRoute_recovered_snd {c : Cloud} {g : String} {h : String}
    {resources : List RouteRecord} {r : RouteRecord} (dg sg : Option String)
    (hcreate : c.createRoute dg sg h = .error (.jsonCode "CF-RouteHostTaken"))
    (hlook : c.getRoutesByHost h = .ok resources)
    (hhead : resources.head? = some r)
    (hassoc : c.associateRoute g r.guid = .ok ()) :
    (addOneRoute c g dg sg h).2 =
      [.create dg sg h, .lookup h, .associate g r.guid] := by
  unfold addOneRoute
  rw [hcreate]
  simp [hlook, hhead, hassoc]

lemma addRoutes_map_route (c : Cloud) (g : String) (d s : Option String)
    (hs : List String) :
    (addRoutes c g d s hs).1.map Entry.route = hs := by
  rw [addRoutes_fst, List.map_map]
  have hid : (Entry.route ∘ fun h => (⟨h, addOk c g d s h⟩ : Entry)) = id := rfl
  rw [hid, List.map_id]

/-- C3: when `createRoute` for hostname `h` rejects with the
`CF-RouteHostTaken` conflict code (for the guids the pipeline passes), the
executor looks the route up by host, associates the found record, records
`{route: h, ok: true}` and no failure entry for `h`; lifted to the map
operation, the final status reports `h` as a success. -/
theorem c3_conflict_recovery (c : Cloud) (g : String) (d s : Option String)
    (hs : List String) (h : String) (resources : List RouteRecord)
    (r : RouteRecord) (args a' : MapArgs) (routes : List RouteRecord)
    (t : List CallEvent)
    (hmem : h ∈ hs)
    (hcreate : ∀ dg sg,
      c.createRoute dg sg h = .error (.jsonCode "CF-RouteHostTaken"))
    (hlook : c.getRoutesByHost h = .ok resources)
    (hhead : resources.head? = some r)
    (hassoc : c.associateRoute g r.guid = .ok ()) :
    (⟨h, true⟩ : Entry) ∈ (addRoutes c g d s hs).1 ∧
    (⟨h, false⟩ : Entry) ∉ (addRoutes c g d s hs).1 ∧
    CallEvent.lookup h ∈ (addRoutes c g d s hs).2 ∧
    CallEvent.associate g r.guid ∈ (addRoutes c g d s hs).2 ∧
    (validateArgsForMapRoutes args = (.ok hs, a') →
      getAppRoutes c args.appname.strVal = (.ok (routes, g), t) →
      (∀ q ∈ routes, q.entity.host ≠ h) →
      ∃ st, (mapRoutes c args).1 = .ok st ∧ (⟨h, true⟩ : Entry) ∈ st) := by
  have hok : ∀ dg sg, addOk c g dg sg h = true := fun dg sg =>
    addOk_recovered dg sg (hcreate dg sg) hlook hhead hassoc
  have htrace : (addOneRoute c g d s h).2 =
      [.create d s h, .lookup h, .associate g r.guid] :=
    addOneRoute_recovered_snd d s (hcreate d s) hlook hhead hassoc
  refine ⟨?_, ?_, ?_, ?_, ?_⟩
  · rw [addRoutes_fst]
    exact List.mem_map.mpr ⟨h, hmem, by rw [hok d s]⟩
  · rw [addRoutes_fst]
    intro hmemF
    obtain ⟨x, hx, hEq⟩ := List.mem_map.mp hmemF
    have hx1 : x = h := congrArg Entry.route hEq
    subst hx1
    have hfalse : addOk c g d s x = false := congrArg Entry.ok hEq
    rw [hok d s] at hfalse
    exact Bool.noConfusion hfalse
  · rw [addRoutes_snd]
    refine List.mem_flatten.mpr
      ⟨(addOneRoute c g d s h).2, List.mem_map.mpr ⟨h, hmem, rfl⟩, ?_⟩
    rw [htrace]
    simp
  · rw [addRoutes_snd]
    refine List.mem_flatten.mpr
      ⟨(addOneRoute c g d s h).2, List.mem_map.mpr ⟨h, hmem, rfl⟩, ?_⟩
    rw [htrace]
    simp
  · intro hv hl hnl
    refine ⟨outcomeReport (mapExec c args.appname.strVal hs routes g).1 hs
      true, ?_, ?_⟩
    · rw [mapRoutes_ok hv hl]
    · unfold outcomeReport
      refine List.mem_append_left _ ?_
      unfold mapExec
      rw [addRoutes_fst]
      refine List.mem_map.mpr ⟨h, ?_, ?_⟩
      · rw [differ_routesToAdd]
        exact List.mem_filter.mpr ⟨hmem, decide_eq_true hnl⟩
      · rw [hok _ _]

/-- Witness for C3: against `cloudConflict` every creation attempt rejects
with the conflict code, the recovery lookup finds record `exg`, and the map
of `other-app` succeeds end to end. -/
theorem c3_witness :
    (⟨"other-app", true⟩ : Entry) ∈
      (addRoutes cloudConflict "appg" none none ["other-app"]).1 ∧
    CallEvent.lookup "other-app" ∈
      (addRoutes cloudConflict "appg" none none ["other-app"]).2 ∧
    ∃ st, (mapRoutes cloudConflict margsC3).1 = .ok st ∧
      (⟨"other-app", true⟩ : Entry) ∈ st := by
  obtain ⟨h1, h2, h3, h4, h5⟩ := c3_conflict_recovery cloudConflict "appg"
    none none ["other-app"] "other-app"
    [⟨"exg", ⟨"other-app", "D", "S"⟩⟩] ⟨"exg", ⟨"other-app", "D", "S"⟩⟩
    margsC3 margsC3 [⟨"g1", ⟨"my-app", "D", "S"⟩⟩]
    [.getApps "app", .getAppRoutes "appg"]
    (by decide) (fun dg sg => rfl) rfl rfl rfl
  exact ⟨h1, h3, h5 rfl rfl (by decide)⟩

lemma deleteRoutes_map_route (c : Cloud) (g : String) (del : JSVal)
    (rs : List RouteRecord) :
    (deleteRoutes c g rs del).1.map Entry.route =
      rs.map (fun r => r.entity.host) := by
  rw [deleteRoutes_fst, List.map_map]
  rfl

/-- C1 counterexample: the unmap request for the single hostname `h` passes
validation and lookup against `cloudDupHosts`, yet the returned status lists
`h` twice (once per live record sharing that host), contradicting the
one-entry-per-requested-hostname claim. -/
theorem c1_counterexample :
    validateArgsForUnmapRoutes uargsDup = .ok ["h"] ∧
    (unmapRoutes cloudDupHosts uargsDup).1 =
      .ok [⟨"h", true⟩, ⟨"h", true⟩] :=
  ⟨rfl, rfl⟩

/-- C1 amended: for map the status covers each requested hostname exactly
once, unconditionally; for unmap the same holds provided the live route list
carries pairwise distinct hostnames (otherwise a requested hostname appears
once per matching live record). -/
theorem c1_full_coverage_amended (c : Cloud) (margs : MapArgs)
    (uargs : UnmapArgs) (reqA reqD : List String) (a' : MapArgs)
    (routesD : List RouteRecord) (gD : String) (tD : List CallEvent)
    (h : String) :
    (validateArgsForMapRoutes margs = (.ok reqA, a') →
      ∀ st, (mapRoutes c margs).1 = .ok st →
        (st.map Entry.route).count h = if h ∈ reqA then 1 else 0) ∧
    (validateArgsForUnmapRoutes uargs = .ok reqD →
      getAppRoutes c uargs.appname.strVal = (.ok (routesD, gD), tD) →
      (routesD.map (fun r => r.entity.host)).Nodup →
      ∀ st, (unmapRoutes c uargs).1 = .ok st →
        (st.map Entry.route).count h = if h ∈ reqD then 1 else 0) := by
  constructor
  · intro hv st hst
    have hnd : reqA.Nodup := validateArgsForMapRoutes_ok_nodup hv
    rcases hE : getAppRoutes c margs.appname.strVal with ⟨res, t⟩
    rcases res with e | ⟨routes, g⟩
    · unfold mapRoutes at hst
      rw [hv, hE] at hst
      simp at hst
    · rw [mapRoutes_ok hv hE] at hst
      simp only [Except.ok.injEq] at hst
      subst hst
      rw [outcomeReport_count _ _ _ hnd h]
      have her : (mapExec c margs.appname.strVal reqA routes g).1.map
          Entry.route =
          reqA.filter (fun x => decide (∀ r ∈ routes, r.entity.host ≠ x)) := by
        unfold mapExec
        rw [addRoutes_map_route, differ_routesToAdd]
      rw [her]
      rw [count_nodup_ite (hnd.filter _) h]
      by_cases hf : h ∈ reqA.filter
          (fun x => decide (∀ r ∈ routes, r.entity.host ≠ x))
      · have hmem : h ∈ reqA := (List.mem_filter.mp hf).1
        simp [hf, hmem]
      · by_cases hmem : h ∈ reqA
        · simp [hf, hmem]
        · simp [hf, hmem]
  · intro hv hl hnodup st hst
    have hnd : reqD.Nodup := validateArgsForUnmapRoutes_ok_nodup hv
    rw [unmapRoutes_ok hv hl] at hst
    simp only [Except.ok.injEq] at hst
    subst hst
    rw [outcomeReport_count _ _ _ hnd h]
    have her : (unmapExec c uargs.appname.strVal reqD routesD gD
        uargs.deleteAfterUnmap).1.map Entry.route =
        (routesD.filter (fun r => decide (r.entity.host ∈ reqD))).map
          (fun r => r.entity.host) := by
      unfold unmapExec
      rw [deleteRoutes_map_route, differ_routesToDelete]
    rw [her]
    have hFnodup : ((routesD.filter
        (fun r => decide (r.entity.host ∈ reqD))).map
          (fun r => r.entity.host)).Nodup :=
      hnodup.sublist ((List.filter_sublist routesD).map _)
    rw [count_nodup_ite hFnodup h]
    have hFsub : ∀ x ∈ (routesD.filter
        (fun r => decide (r.entity.host ∈ reqD))).map
          (fun r => r.entity.host), x ∈ reqD := by
      intro x hx
      obtain ⟨r, hr, hxr⟩ := List.mem_map.mp hx
      have hdec := (List.mem_filter.mp hr).2
      rw [← hxr]
      exact of_decide_eq_true hdec
    by_cases hf : h ∈ (routesD.filter
        (fun r => decide (r.entity.host ∈ reqD))).map (fun r => r.entity.host)
    · have hmem : h ∈ reqD := hFsub h hf
      simp [hf, hmem]
    · by_cases hmem : h ∈ reqD
      · simp [hf, hmem]
      · simp [hf, hmem]

/-- Witness for C1 amended: the map of the already-live `my-app` reports it
once; the unmap of `my-app` and `ghost` against distinct-host live routes
reports `ghost` once. -/
theorem c1_witness :
    (([⟨"my-app", true⟩] : List Entry).map Entry.route).count "my-app" =
      (if "my-app" ∈ ["my-app"] then 1 else 0) ∧
    (([⟨"my-app", true⟩, ⟨"ghost", false⟩] : List Entry).map
        Entry.route).count "ghost" =
      (if "ghost" ∈ ["my-app", "ghost"] then 1 else 0) := by
  constructor
  · exact (c1_full_coverage_amended cloudOk margsPre uargsC1 ["my-app"]
      ["my-app", "ghost"] margsPre [⟨"g1", ⟨"my-app", "D", "S"⟩⟩] "appg"
      [.getApps "app", .getAppRoutes "appg"] "my-app").1 rfl
      [⟨"my-app", true⟩] rfl
  · exact (c1_full_coverage_amended cloudOk margsPre uargsC1 ["my-app"]
      ["my-app", "ghost"] margsPre [⟨"g1", ⟨"my-app", "D", "S"⟩⟩] "appg"
      [.getApps "app", .getAppRoutes "appg"] "ghost").2 rfl rfl (by decide)
      [⟨"my-app", true⟩, ⟨"ghost", false⟩] rfl
